import Mathlib

/-!
# Verification of the ESO Crown Store free-item scraper

Shallow embedding of `src/eso_scraper.py`.  The Selenium/HTTP/file-system
collaborators are modelled as explicit inputs:

* a rendered detail page is a `DetailPage` recording, for each relevant
  query the code performs, exactly the data the code reads from the DOM;
* fallible collaborator calls (link enumeration, attribute reads, image
  size reads, the webhook POST) are represented by `Except`/`Option`
  inputs, `none`/`.error` standing for a raised exception;
* the ledger file (`posted_items.json`) is a `LedgerFile`;
* the per-run loop of `scrape_free_items` is a fold over the ordered URL
  list, with the item classification given as an oracle
  `String → Option ClassifiedItem` (the code visits each detail URL at most
  once, so a deterministic oracle is faithful).

Machine integers do not occur in the relevant logic (image areas are
unbounded Python ints), so `Nat` is used directly.
-/

namespace EsoScraper

/-! ## String helpers

Python's `pat in s` (substring containment), `s.startswith(pat)`,
`s.strip()`, `s.lower()` and `len(s)` are modelled over `List Char`. -/

/-- `l` begins with `pat` (Python `startswith` on char lists). -/
def listStarts (pat l : List Char) : Bool :=
  decide (l.take pat.length = pat)

/-- `pat` occurs contiguously in `l` (Python `in` on char lists). -/
def listHasSub (pat : List Char) : List Char → Bool
  | [] => pat.isEmpty
  | c :: rest => listStarts pat (c :: rest) || listHasSub pat rest

/-- Python `pat in s` for strings. -/
def strHasSub (s pat : String) : Bool :=
  listHasSub pat.toList s.toList

/-- Python `s.startswith(pat)`. -/
def strStarts (s pat : String) : Bool :=
  listStarts pat.toList s.toList

/-- Python `s.lower()` (ASCII case folding suffices for the phrases the
code compares against). -/
def strLower (s : String) : String :=
  ⟨s.toList.map Char.toLower⟩

/-- Python `s.strip()`: drop leading and trailing whitespace. -/
def strTrim (s : String) : String :=
  ⟨((s.toList.dropWhile Char.isWhitespace).reverse.dropWhile Char.isWhitespace).reverse⟩

/-! ## Data model -/

/-- The dictionary built at `eso_scraper.py:221-228`: one classified free
item.  `image_url` is `none` when no image qualified (`image_url: None`). -/
structure ClassifiedItem where
  name : String
  url : String
  category_url : String
  image_url : Option String
  is_eso_plus_free : Bool
  found_date : String
deriving DecidableEq, Repr

/-- `eso_scraper.py:403`: `item_id = f"{name}-{is_eso_plus_free}"`.
Python renders the bool as `True`/`False`. -/
def pyBoolStr (b : Bool) : String :=
  if b then "True" else "False"

/-- The ItemIdentity string of a classified item. -/
def itemId (it : ClassifiedItem) : String :=
  it.name ++ "-" ++ pyBoolStr it.is_eso_plus_free

/-! ## Detail-page model -/

/-- A DOM node as the classifier reads it: its text, and whether the XPath
`./ancestor-or-self::*[contains(@class, 'eso-plus-loyalty')]` query on it
returns at least one element (`eso_scraper.py:153-154`). -/
structure DomNode where
  text : String
  loyaltyAncestorOrSelf : Bool
deriving DecidableEq, Repr

/-- An `<img>` node matched by `//img[contains(@src, "/ape/uploads/")]`
(`eso_scraper.py:236`).  `size = none` models `img.size` raising, which the
code catches at `eso_scraper.py:253-254` by recording the image with area 0. -/
structure PageImage where
  src : String
  size : Option (Nat × Nat)
deriving DecidableEq, Repr

/-- A rendered item detail page, recording the result of each DOM query
`extract_item_details` performs:

* `nodes`: every element of the page with its text and loyalty-ancestry
  flag; the queries at lines 120/130 (`contains(text(), 'FREE!')`) and
  171-172 (both `'FREE!'` and `'With ESO Plus Deal'`) filter this list;
* `nameTexts`: for each of the seven name selectors of lines 194-202, in
  order, the texts of the matched elements, in order;
* `images`: the images matched at line 236, or `none` when that block
  raised (the outer `except` of lines 262-266 then leaves `image_url`
  absent). -/
structure DetailPage where
  nodes : List DomNode
  nameTexts : List (List String)
  images : Option (List PageImage)
deriving DecidableEq, Repr

/-! ## Classifier (`extract_item_details`, `eso_scraper.py:80-272`) -/

/-- Node text contains the free marker (`contains(text(), 'FREE!')`). -/
def nodeHasFree (n : DomNode) : Bool :=
  strHasSub n.text "FREE!"

/-- Node text contains both `'FREE!'` and `'With ESO Plus Deal'`
(`eso_scraper.py:171-172`). -/
def nodeHasDeal (n : DomNode) : Bool :=
  strHasSub n.text "FREE!" && strHasSub n.text "With ESO Plus Deal"

/-- The per-marker loop of `eso_scraper.py:136-168`: markers in DOM order,
first marker whose ancestor-or-self query hits wins, with `break`. -/
def markerLoop : List DomNode → Bool
  | [] => false
  | n :: ns => if n.loyaltyAncestorOrSelf then true else markerLoop ns

/-- The name filter of `eso_scraper.py:208`: non-empty, length > 2, and the
lower-cased text contains neither `'crown store'` nor `'purchase crowns'`. -/
def validName (t : String) : Bool :=
  !t.isEmpty && decide (t.length > 2) &&
    !strHasSub (strLower t) "crown store" && !strHasSub (strLower t) "purchase crowns"

/-- The selector probe of `eso_scraper.py:204-212`: walk the selectors in
order, and inside each the matched elements in order; the first stripped
text passing `validName` is taken (`break`/`break`). -/
def findName (selectorTexts : List (List String)) : Option String :=
  selectorTexts.flatten.findSome? fun raw =>
    let t := strTrim raw
    if validName t then some t else none

/-- The `src` filter of `eso_scraper.py:242-245`: truthy, contains
`'akamaihd.net'` and `'/ape/uploads/'`, does not contain `'icon-crown'`. -/
def imgSrcOk (src : String) : Bool :=
  !src.isEmpty && strHasSub src "akamaihd.net" && strHasSub src "/ape/uploads/" &&
    !strHasSub src "icon-crown"

/-- `unique_images[src] = v`: Python dict assignment — replace the value if
the key is present (keeping its position), else append. -/
def updateEntry (acc : List (String × Nat)) (k : String) (v : Nat) : List (String × Nat) :=
  if acc.any (fun e => e.1 == k) then
    acc.map fun e => if e.1 == k then (k, v) else e
  else acc ++ [(k, v)]

/-- One iteration of the `unique_images` loop (`eso_scraper.py:240-254`).
For a qualifying `src`: if the size reads succeed and both dimensions
exceed 100, the image is recorded with area `w * h`; if the size read
raises (`size = none`), the bare `except` records it with area 0. -/
def imageStepFn (acc : List (String × Nat)) (img : PageImage) : List (String × Nat) :=
  if imgSrcOk img.src then
    match img.size with
    | some wh => if wh.1 > 100 && wh.2 > 100 then updateEntry acc img.src (wh.1 * wh.2) else acc
    | none => updateEntry acc img.src 0
  else acc

/-- The `unique_images` dict built at `eso_scraper.py:239-254`. -/
def imageEntries (imgs : List PageImage) : List (String × Nat) :=
  imgs.foldl imageStepFn []

/-- `max(keys, key=value)` (`eso_scraper.py:258`): first key of maximal
value, Python `max` keeping the earlier element on ties. -/
def maxEntry (first : String × Nat) (rest : List (String × Nat)) : String :=
  (rest.foldl (fun best e => if e.2 > best.2 then e else best) first).1

/-- The whole image-resolution step (`eso_scraper.py:231-266`): `none` on
the image-query input means that block raised, leaving `image_url` absent. -/
def resolveImage : Option (List PageImage) → Option String
  | none => none
  | some imgs =>
    match imageEntries imgs with
    | [] => none
    | e :: rest => some (maxEntry e rest)

/-- The spec-side image rule, stated for comparison with `resolveImage`.
It follows the claim's words: only images whose address qualifies AND whose
rendered width and height are both read successfully and both exceed 100
pixels participate, each with area width × height; an image whose size read
fails is excluded. -/
def specImageStepFn (acc : List (String × Nat)) (img : PageImage) : List (String × Nat) :=
  if imgSrcOk img.src then
    match img.size with
    | some wh => if wh.1 > 100 && wh.2 > 100 then updateEntry acc img.src (wh.1 * wh.2) else acc
    | none => acc
  else acc

/-- Spec-side `unique_images`: as `imageEntries` but with no area-0 entry
for a failed size read. -/
def specImageEntries (imgs : List PageImage) : List (String × Nat) :=
  imgs.foldl specImageStepFn []

/-- Spec-side image selection: greatest area among `specImageEntries`,
absent when none qualify or the image query failed. -/
def specImageChoice : Option (List PageImage) → Option String
  | none => none
  | some imgs =>
    match specImageEntries imgs with
    | [] => none
    | e :: rest => some (maxEntry e rest)

/-- The validation part of `extract_item_details` (`eso_scraper.py:106-268`)
on an already-loaded detail page.  Returns `none` when the page has no
`'FREE!'` marker (line 122-124) or no qualifying name (line 218-219);
otherwise the full record of lines 221-228 with the image of lines 231-266.
(`is_free` is `True` on every path reaching line 218, so only `item_name`
can reject there.) -/
def extract_item_details (page : DetailPage) (target_url category_url now : String) :
    Option ClassifiedItem :=
  let free_elements := page.nodes.filter fun n => nodeHasFree n
  if free_elements.isEmpty then none
  else
    let is_eso_plus_free_found :=
      markerLoop free_elements || page.nodes.any fun n => nodeHasDeal n
    match findName page.nameTexts with
    | none => none
    | some item_name =>
      some
        { name := item_name
          url := target_url
          category_url := category_url
          image_url := resolveImage page.images
          is_eso_plus_free := is_eso_plus_free_found
          found_date := now }

/-! ## Discord delivery (`send_item_to_discord`, `eso_scraper.py:274-300`) -/

/-- `eso_scraper.py:278-281`. -/
def free_text (it : ClassifiedItem) : String :=
  if it.is_eso_plus_free then "FREE with ESO Plus!" else "FREE!"

/-- The message content of `eso_scraper.py:283`. -/
def discord_message (it : ClassifiedItem) : String :=
  "**" ++ it.name ++ " - " ++ free_text it ++ "**\n" ++ it.url

/-- `send_item_to_discord` result: `status = none` models the POST raising
(caught at lines 298-300); only a 204 response counts as success. -/
def send_item_to_discord (status : Option Nat) : Bool :=
  match status with
  | some code => code == 204
  | none => false

/-! ## Ledger file (`load_posted_items` / `save_posted_items`) -/

/-- The state of `posted_items.json` as `load_posted_items` distinguishes
it: absent (`os.path.exists` false), raising on read/parse/`set(...)`
(`corrupt`), or a readable JSON array of strings. -/
inductive LedgerFile
  | absent
  | corrupt
  | stored (ids : List String)
deriving DecidableEq, Repr

/-- `eso_scraper.py:302-311`: absent or raising file yields the empty set,
otherwise `set(json.load(f))`. -/
def load_posted_items : LedgerFile → Finset String
  | .absent => ∅
  | .corrupt => ∅
  | .stored ids => ids.toFinset

/-- `eso_scraper.py:313-320`: `json.dump(list(posted_items), ...)`.
Python's set iteration order is unspecified; the model fixes the sorted
order (any enumeration of the set yields the same reloaded set). -/
def save_posted_items (s : Finset String) : LedgerFile :=
  .stored (s.sort (· ≤ ·))

/-! ## Page discovery (`get_all_crownstore_urls`, `eso_scraper.py:44-78`) -/

/-- The root listing address (`eso_scraper.py:50,64,70,78`). -/
def crownstore_base : String :=
  "https://www.elderscrollsonline.com/en-us/crownstore"

/-- One `<a>` element as the discovery loop reads it: `err` models
`get_attribute("href")` raising (caught by `except: continue`), otherwise
the attribute value (`none` = missing `href`). -/
inductive LinkRes
  | err
  | attr (href : Option String)
deriving DecidableEq, Repr

/-- `get_all_crownstore_urls`: on any failure of the enumeration as a whole
(`.error`), fall back to the one-element root list (line 78); on success,
collect into a set every truthy href starting with the root address, add
the root address, and return `list(urls)`. -/
def get_all_crownstore_urls : Except Unit (List LinkRes) → List String
  | .error _ => [crownstore_base]
  | .ok links =>
    let urls : Finset String :=
      links.foldl
        (fun acc l =>
          match l with
          | .err => acc
          | .attr none => acc
          | .attr (some h) =>
            if !h.isEmpty && strStarts h crownstore_base then insert h acc else acc)
        ∅
    (insert crownstore_base urls).sort (· ≤ ·)

/-! ## Run orchestration (`scrape_free_items`, `eso_scraper.py:322-436`) -/

/-- The hand-curated priority list of `eso_scraper.py:339-347`. -/
def priority_urls : List String :=
  [ "https://www.elderscrollsonline.com/en-us/crownstore/category/159"
  , "https://www.elderscrollsonline.com/en-us/crownstore/category/78"
  , "https://www.elderscrollsonline.com/en-us/crownstore/category/78#quest-starters"
  , "https://www.elderscrollsonline.com/en-us/crownstore/category/78#currency"
  , "https://www.elderscrollsonline.com/en-us/crownstore/category/71"
  , "https://www.elderscrollsonline.com/en-us/crownstore/category/1"
  , "https://www.elderscrollsonline.com/en-us/crownstore/eso-plus" ]

/-- `eso_scraper.py:350-351`: priority URLs first, then the discovered URLs
not among them, in their discovered order. -/
def orderUrls (all_urls : List String) : List String :=
  let remaining_urls := all_urls.filter fun u => decide (u ∉ priority_urls)
  priority_urls ++ remaining_urls

/-- The mutable state of one run of `scrape_free_items`: the accumulated
item list, the `new_posted_items` set, the run-scoped `processed_urls` set,
the identities for which a notification was dispatched (in dispatch order),
and the delivery outcomes (ignored by the code). -/
structure RunState where
  free_items : List ClassifiedItem
  new_posted : Finset String
  processed : Finset String
  notified : List String
  deliveries : List Bool
deriving DecidableEq

/-- Initial run state (`eso_scraper.py:325-331`): `new_posted_items` starts
as a copy of the loaded snapshot. -/
def initState (posted : Finset String) : RunState :=
  { free_items := [], new_posted := posted, processed := ∅, notified := [], deliveries := [] }

/-- Processing of one collected detail URL (`eso_scraper.py:390-420`):
skip if already in `processed_urls`, else mark processed, classify, and —
when an item results whose identity is NOT in the loaded-at-start snapshot
`posted` — append it to `free_items`, add the identity to
`new_posted_items`, and dispatch the notification (its outcome is recorded
but never consulted).  Note the membership test is against `posted`, the
snapshot, not against the growing `new_posted` set. -/
def scrapeStep (posted : Finset String) (classify : String → Option ClassifiedItem)
    (deliver : ClassifiedItem → Bool) (s : RunState) (u : String) : RunState :=
  if u ∈ s.processed then s
  else
    let s := { s with processed := insert u s.processed }
    match classify u with
    | none => s
    | some item =>
      if itemId item ∈ posted then s
      else
        { s with
          free_items := s.free_items ++ [item]
          new_posted := insert (itemId item) s.new_posted
          notified := s.notified ++ [itemId item]
          deliveries := s.deliveries ++ [deliver item] }

/-- The URL sweep, a left fold of `scrapeStep` (the two-level
page/item loop of the code is flattened into the detail-URL sequence it
produces; `processed_urls` preserves the first-visit-wins semantics). -/
def scrapeRun (posted : Finset String) (classify : String → Option ClassifiedItem)
    (deliver : ClassifiedItem → Bool) (s : RunState) : List String → RunState
  | [] => s
  | u :: us => scrapeRun posted classify deliver (scrapeStep posted classify deliver s u) us

/-- One full run of `scrape_free_items` given the loaded snapshot, the
classification oracle, the delivery oracle and the discovered URL list:
order the URLs (lines 339-351) and sweep them. -/
def scrape_free_items (posted : Finset String) (classify : String → Option ClassifiedItem)
    (deliver : ClassifiedItem → Bool) (all_urls : List String) : RunState :=
  scrapeRun posted classify deliver (initState posted) (orderUrls all_urls)

/-- The output artifact `eso-free-items.json` written by `main`
(`eso_scraper.py:446-450`): exactly the run's `free_items` list. -/
def run_artifact (posted : Finset String) (classify : String → Option ClassifiedItem)
    (deliver : ClassifiedItem → Bool) (all_urls : List String) : List ClassifiedItem :=
  (scrape_free_items posted classify deliver all_urls).free_items

/-- First-occurrence deduplication of a URL list against a seen-set: the
sequence of URLs the sweep actually classifies. -/
def dedupFirst (seen : Finset String) : List String → List String
  | [] => []
  | u :: us => if u ∈ seen then dedupFirst seen us else u :: dedupFirst (insert u seen) us

/-- The delivery-independent part of a run state: everything except the
recorded delivery outcomes. -/
def coreView (s : RunState) : List ClassifiedItem × Finset String × Finset String × List String :=
  (s.free_items, s.new_posted, s.processed, s.notified)

/-! ## Concrete instances used in counterexamples and witnesses -/

/-- A classified free-for-all item found at detail URL `u1`. -/
def itemA1 : ClassifiedItem :=
  { name := "A", url := "u1", category_url := "c", image_url := none,
    is_eso_plus_free := false, found_date := "d" }

/-- The same `(name, is_eso_plus_free)` pair at a different detail URL. -/
def itemA2 : ClassifiedItem :=
  { name := "A", url := "u2", category_url := "c", image_url := none,
    is_eso_plus_free := false, found_date := "d" }

/-- A classification oracle: two distinct detail URLs both classify to the
identity `"A-False"`. -/
def classifyAA : String → Option ClassifiedItem := fun u =>
  if u = "u1" then some itemA1 else if u = "u2" then some itemA2 else none

/-- A detail page whose only free marker sits inside an
`eso-plus-loyalty` container, next to an unrelated ESO-Plus banner. -/
def pageSub : DetailPage :=
  { nodes :=
      [ { text := "Unrelated ESO Plus banner", loyaltyAncestorOrSelf := false }
      , { text := "FREE!", loyaltyAncestorOrSelf := true } ]
    nameTexts := [[], ["  Nix-Ox War-Steed  "]]
    images := some [] }

/-- The record `extract_item_details` produces on `pageSub`. -/
def itemSub : ClassifiedItem :=
  { name := "Nix-Ox War-Steed", url := "u", category_url := "c", image_url := none,
    is_eso_plus_free := true, found_date := "t" }

/-- A qualifying image address whose rendered-size read raises. -/
def imgNoSize : PageImage :=
  { src := "https://images-eso.akamaihd.net/ape/uploads/big.png", size := none }

/-- The 50 × 50 candidate of the spec's image-selection example. -/
def img50 : PageImage :=
  { src := "https://images-eso.akamaihd.net/ape/uploads/pic50.png", size := some (50, 50) }

/-- The 150 × 150 candidate of the spec's image-selection example. -/
def img150 : PageImage :=
  { src := "https://images-eso.akamaihd.net/ape/uploads/pic150.png", size := some (150, 150) }

/-- The 300 × 200 candidate of the spec's image-selection example. -/
def img300 : PageImage :=
  { src := "https://images-eso.akamaihd.net/ape/uploads/pic300.png", size := some (300, 200) }

/-! ## Helper lemmas: classifier -/

theorem markerLoop_eq_any (l : List DomNode) :
    markerLoop l = l.any fun n => n.loyaltyAncestorOrSelf := by
  induction l with
  | nil => rfl
  | cons n ns ih => cases h : n.loyaltyAncestorOrSelf <;> simp [markerLoop, h, ih]

theorem findSome?_isSome_iff {α β : Type} (f : α → Option β) (l : List α) :
    (l.findSome? f).isSome = true ↔ ∃ a ∈ l, (f a).isSome = true := by
  induction l with
  | nil => simp [List.findSome?]
  | cons a l ih =>
    rw [List.findSome?_cons]
    cases h : f a <;> simp [h, ih]

theorem findName_isSome_iff (sel : List (List String)) :
    (findName sel).isSome = true ↔ ∃ raw ∈ sel.flatten, validName (strTrim raw) = true := by
  rw [findName, findSome?_isSome_iff]
  refine exists_congr fun raw => and_congr_right fun _ => ?_
  cases h : validName (strTrim raw) <;> simp [h]

theorem extract_flag_eq (page : DetailPage) (tu cu now : String) (item : ClassifiedItem)
    (h : extract_item_details page tu cu now = some item) :
    item.is_eso_plus_free =
      (markerLoop (page.nodes.filter fun n => nodeHasFree n) ||
        page.nodes.any fun n => nodeHasDeal n) := by
  simp only [extract_item_details] at h
  split at h
  · exact absurd h (by simp)
  · split at h
    · exact absurd h (by simp)
    · simp only [Option.some.injEq] at h
      subst h
      rfl

/-- Claim C3: on a detail page that yields a classified item, the
`is_eso_plus_free` flag is true exactly when some `'FREE!'` marker node
carries the `eso-plus-loyalty` class on itself or an ancestor, or when some
node's text contains both `'FREE!'` and `'With ESO Plus Deal'`; subscription
signals satisfying neither check leave the item free-for-all. -/
theorem subscription_flag_iff_marker_or_deal (page : DetailPage) (tu cu now : String)
    (item : ClassifiedItem) (h : extract_item_details page tu cu now = some item) :
    item.is_eso_plus_free = true ↔
      ((∃ n ∈ page.nodes, nodeHasFree n = true ∧ n.loyaltyAncestorOrSelf = true) ∨
        (∃ n ∈ page.nodes,
          strHasSub n.text "FREE!" = true ∧ strHasSub n.text "With ESO Plus Deal" = true)) := by
  rw [extract_flag_eq page tu cu now item h, markerLoop_eq_any]
  simp [List.any_eq_true, List.mem_filter, nodeHasDeal, Bool.and_eq_true, and_assoc]

/-- Claim C3, witness: a concrete page whose `'FREE!'` marker lies inside an
`eso-plus-loyalty` container is classified subscription-gated. -/
theorem subscription_flag_iff_marker_or_deal_witness :
    extract_item_details pageSub "u" "c" "t" = some itemSub ∧
    (itemSub.is_eso_plus_free = true ↔
      ((∃ n ∈ pageSub.nodes, nodeHasFree n = true ∧ n.loyaltyAncestorOrSelf = true) ∨
        (∃ n ∈ pageSub.nodes,
          strHasSub n.text "FREE!" = true ∧ strHasSub n.text "With ESO Plus Deal" = true))) :=
  ⟨by decide, subscription_flag_iff_marker_or_deal pageSub "u" "c" "t" itemSub (by decide)⟩

theorem extract_isSome_iff (page : DetailPage) (tu cu now : String) :
    (extract_item_details page tu cu now).isSome = true ↔
      (¬(page.nodes.filter fun n => nodeHasFree n).isEmpty = true ∧
        (findName page.nameTexts).isSome = true) := by
  simp only [extract_item_details]
  by_cases hfe : (page.nodes.filter fun n => nodeHasFree n).isEmpty
  · simp [hfe]
  · rcases hname : findName page.nameTexts with _ | nm <;> simp [hfe, hname]

theorem filter_not_isEmpty_iff (l : List DomNode) (p : DomNode → Bool) :
    ¬(l.filter p).isEmpty = true ↔ ∃ n ∈ l, p n = true := by
  rw [List.isEmpty_iff]
  constructor
  · intro h
    obtain ⟨n, hn⟩ := List.exists_mem_of_ne_nil _ h
    exact ⟨n, (List.mem_filter.mp hn).1, (List.mem_filter.mp hn).2⟩
  · rintro ⟨n, hn, hf⟩ hnil
    have hmem : n ∈ l.filter p := List.mem_filter.mpr ⟨hn, hf⟩
    rw [hnil] at hmem
    simp at hmem

/-- Claim C4: a detail page yields a classified item exactly when it has at
least one `'FREE!'` marker node and some name-selector text, stripped, is
non-empty of length > 2 and avoids the chrome phrases; otherwise no record
at all is produced. -/
theorem item_iff_free_marker_and_name (page : DetailPage) (tu cu now : String) :
    (extract_item_details page tu cu now).isSome = true ↔
      ((∃ n ∈ page.nodes, nodeHasFree n = true) ∧
        ∃ raw ∈ page.nameTexts.flatten, validName (strTrim raw) = true) := by
  rw [extract_isSome_iff, filter_not_isEmpty_iff, findName_isSome_iff]

/-! ## Helper lemmas: image selection -/

theorem imageStepFn_eq_spec (acc : List (String × Nat)) (img : PageImage)
    (h : img.size.isSome = true) : imageStepFn acc img = specImageStepFn acc img := by
  rcases hs : img.size with _ | wh
  · rw [hs] at h
    simp at h
  · simp only [imageStepFn, specImageStepFn, hs]

theorem imageEntries_eq_spec_aux (imgs : List PageImage)
    (h : ∀ i ∈ imgs, i.size.isSome = true) :
    ∀ acc, List.foldl imageStepFn acc imgs = List.foldl specImageStepFn acc imgs := by
  induction imgs with
  | nil => intro _; rfl
  | cons i is ih =>
    intro acc
    rw [List.foldl_cons, List.foldl_cons, imageStepFn_eq_spec _ _ (h i (by simp))]
    exact ih (fun j hj => h j (List.mem_cons_of_mem _ hj)) _

/-- Claim C5 (amended): when every candidate image's rendered size is read
without error, the code's image choice agrees with the claim's rule
(greatest width × height among address-qualifying images with both
dimensions above 100, absent when none qualify); an image whose size read
raises is instead retained with area 0 and can itself be selected. -/
theorem image_choice_matches_spec_without_size_errors (imgs : List PageImage)
    (h : ∀ i ∈ imgs, i.size.isSome = true) :
    resolveImage (some imgs) = specImageChoice (some imgs) := by
  have he : imageEntries imgs = specImageEntries imgs := imageEntries_eq_spec_aux imgs h []
  simp only [resolveImage, specImageChoice]
  rw [he]

/-- Claim C5, witness: the spec's own example — candidates of 50 × 50,
150 × 150 and 300 × 200 — selects the 300 × 200 image under both rules. -/
theorem image_choice_matches_spec_witness :
    (∀ i ∈ [img50, img150, img300], i.size.isSome = true) ∧
    resolveImage (some [img50, img150, img300]) =
      specImageChoice (some [img50, img150, img300]) ∧
    resolveImage (some [img50, img150, img300]) =
      some "https://images-eso.akamaihd.net/ape/uploads/pic300.png" :=
  ⟨by decide, image_choice_matches_spec_without_size_errors _ (by decide), by decide⟩

/-- Claim C5, counterexample: a single address-qualifying image whose size
read raises is selected by the code (with area 0), while the claim's rule —
rendered width and height both above 100 — says `imageUrl` must be absent. -/
theorem image_size_error_counterexample :
    resolveImage (some [imgNoSize]) =
      some "https://images-eso.akamaihd.net/ape/uploads/big.png" ∧
    specImageChoice (some [imgNoSize]) = none := by decide

/-! ## Helper lemmas: ledger file -/

theorem load_save (s : Finset String) :
    load_posted_items (save_posted_items s) = s := by
  simp [load_posted_items, save_posted_items, Finset.sort_toFinset]

/-! ## Helper lemmas: run orchestration -/

theorem scrapeStep_cases (p : Finset String) (c : String → Option ClassifiedItem)
    (d : ClassifiedItem → Bool) (s : RunState) (u : String) :
    scrapeStep p c d s u =
      if u ∈ s.processed then s
      else
        match c u with
        | none => { s with processed := insert u s.processed }
        | some item =>
          if itemId item ∈ p then { s with processed := insert u s.processed }
          else
            { free_items := s.free_items ++ [item]
              new_posted := insert (itemId item) s.new_posted
              processed := insert u s.processed
              notified := s.notified ++ [itemId item]
              deliveries := s.deliveries ++ [d item] } := rfl

theorem step_processed_superset (p : Finset String) (c : String → Option ClassifiedItem)
    (d : ClassifiedItem → Bool) (s : RunState) (u : String) :
    s.processed ⊆ (scrapeStep p c d s u).processed := by
  rw [scrapeStep_cases]
  by_cases hm : u ∈ s.processed
  · simp [hm]
  · rcases hc : c u with _ | item
    · simp [hm, hc, Finset.subset_insert]
    · by_cases hp : itemId item ∈ p <;> simp [hm, hc, hp, Finset.subset_insert]

theorem step_new_posted_superset (p : Finset String) (c : String → Option ClassifiedItem)
    (d : ClassifiedItem → Bool) (s : RunState) (u : String) :
    s.new_posted ⊆ (scrapeStep p c d s u).new_posted := by
  rw [scrapeStep_cases]
  by_cases hm : u ∈ s.processed
  · simp [hm]
  · rcases hc : c u with _ | item
    · simp [hm, hc]
    · by_cases hp : itemId item ∈ p <;> simp [hm, hc, hp, Finset.subset_insert]

theorem step_u_mem_processed (p : Finset String) (c : String → Option ClassifiedItem)
    (d : ClassifiedItem → Bool) (s : RunState) (u : String) :
    u ∈ (scrapeStep p c d s u).processed := by
  rw [scrapeStep_cases]
  by_cases hm : u ∈ s.processed
  · rw [if_pos hm]
    exact hm
  · rcases hc : c u with _ | item
    · simp [hm, hc]
    · by_cases hp : itemId item ∈ p <;> simp [hm, hc, hp]

theorem step_notified_not_posted (p : Finset String) (c : String → Option ClassifiedItem)
    (d : ClassifiedItem → Bool) (s : RunState) (u : String)
    (h : ∀ x ∈ s.notified, x ∉ p) :
    ∀ x ∈ (scrapeStep p c d s u).notified, x ∉ p := by
  rw [scrapeStep_cases]
  by_cases hm : u ∈ s.processed
  · simpa [hm] using h
  · rcases hc : c u with _ | item
    · simpa [hm, hc] using h
    · by_cases hp : itemId item ∈ p
      · simpa [hm, hc, hp] using h
      · rw [if_neg hm]
        simp only [hc]
        rw [if_neg hp]
        intro x hx
        rcases List.mem_append.mp hx with hx | hx
        · exact h x hx
        · rw [List.mem_singleton.mp hx]
          exact hp

theorem step_notified_in_new (p : Finset String) (c : String → Option ClassifiedItem)
    (d : ClassifiedItem → Bool) (s : RunState) (u : String)
    (h : ∀ x ∈ s.notified, x ∈ s.new_posted) :
    ∀ x ∈ (scrapeStep p c d s u).notified, x ∈ (scrapeStep p c d s u).new_posted := by
  rw [scrapeStep_cases]
  by_cases hm : u ∈ s.processed
  · simpa [hm] using h
  · rcases hc : c u with _ | item
    · simpa [hm, hc] using h
    · by_cases hp : itemId item ∈ p
      · simpa [hm, hc, hp] using h
      · rw [if_neg hm]
        simp only [hc]
        rw [if_neg hp]
        intro x hx
        rcases List.mem_append.mp hx with hx | hx
        · exact Finset.mem_insert_of_mem (h x hx)
        · rw [List.mem_singleton.mp hx]
          exact Finset.mem_insert_self _ _

/-- Invariant tying `processed_urls` to `new_posted_items`: every processed
URL whose classification yields an identity outside the snapshot has that
identity recorded. -/
def ProcInv (p : Finset String) (c : String → Option ClassifiedItem) (s : RunState) : Prop :=
  ∀ v ∈ s.processed, ∀ item, c v = some item → itemId item ∉ p → itemId item ∈ s.new_posted

theorem step_proc_inv (p : Finset String) (c : String → Option ClassifiedItem)
    (d : ClassifiedItem → Bool) (s : RunState) (u : String)
    (h : ProcInv p c s) : ProcInv p c (scrapeStep p c d s u) := by
  rw [scrapeStep_cases]
  by_cases hm : u ∈ s.processed
  · simpa [hm] using h
  · rcases hc : c u with _ | item
    · simp only [hm, hc, if_neg, ite_false, ProcInv]
      intro v hv item2 hv2 hnp
      rcases Finset.mem_insert.mp hv with rfl | hv
      · rw [hc] at hv2
        cases hv2
      · exact h v hv item2 hv2 hnp
    · by_cases hp : itemId item ∈ p
      · simp only [hm, hc, hp, if_neg, ite_false, ite_true, ProcInv]
        intro v hv item2 hv2 hnp
        rcases Finset.mem_insert.mp hv with rfl | hv
        · rw [hc] at hv2
          injection hv2 with he
          subst he
          exact absurd hp hnp
        · exact h v hv item2 hv2 hnp
      · simp only [hm, hc, hp, if_neg, ite_false, ProcInv]
        intro v hv item2 hv2 hnp
        rcases Finset.mem_insert.mp hv with rfl | hv
        · rw [hc] at hv2
          injection hv2 with he
          subst he
          exact Finset.mem_insert_self _ _
        · exact Finset.mem_insert_of_mem (h v hv item2 hv2 hnp)

theorem run_processed_superset (p : Finset String) (c : String → Option ClassifiedItem)
    (d : ClassifiedItem → Bool) :
    ∀ (urls : List String) (s : RunState),
      s.processed ⊆ (scrapeRun p c d s urls).processed := by
  intro urls
  induction urls with
  | nil => intro s; simp [scrapeRun]
  | cons u us ih =>
    intro s
    simp only [scrapeRun]
    exact (step_processed_superset p c d s u).trans (ih _)

theorem run_new_posted_superset (p : Finset String) (c : String → Option ClassifiedItem)
    (d : ClassifiedItem → Bool) :
    ∀ (urls : List String) (s : RunState),
      s.new_posted ⊆ (scrapeRun p c d s urls).new_posted := by
  intro urls
  induction urls with
  | nil => intro s; simp [scrapeRun]
  | cons u us ih =>
    intro s
    simp only [scrapeRun]
    exact (step_new_posted_superset p c d s u).trans (ih _)

theorem run_mem_processed (p : Finset String) (c : String → Option ClassifiedItem)
    (d : ClassifiedItem → Bool) (u : String) :
    ∀ (urls : List String) (s : RunState), u ∈ urls →
      u ∈ (scrapeRun p c d s urls).processed := by
  intro urls
  induction urls with
  | nil => intro s h; simp at h
  | cons v vs ih =>
    intro s h
    simp only [scrapeRun]
    rcases List.mem_cons.mp h with rfl | hmem
    · exact run_processed_superset p c d vs _ (step_u_mem_processed p c d s u)
    · exact ih _ hmem

theorem run_notified_not_posted (p : Finset String) (c : String → Option ClassifiedItem)
    (d : ClassifiedItem → Bool) :
    ∀ (urls : List String) (s : RunState), (∀ x ∈ s.notified, x ∉ p) →
      ∀ x ∈ (scrapeRun p c d s urls).notified, x ∉ p := by
  intro urls
  induction urls with
  | nil => intro s h; simpa [scrapeRun] using h
  | cons u us ih =>
    intro s h
    simp only [scrapeRun]
    exact ih _ (step_notified_not_posted p c d s u h)

theorem run_notified_in_new (p : Finset String) (c : String → Option ClassifiedItem)
    (d : ClassifiedItem → Bool) :
    ∀ (urls : List String) (s : RunState), (∀ x ∈ s.notified, x ∈ s.new_posted) →
      ∀ x ∈ (scrapeRun p c d s urls).notified, x ∈ (scrapeRun p c d s urls).new_posted := by
  intro urls
  induction urls with
  | nil => intro s h; simpa [scrapeRun] using h
  | cons u us ih =>
    intro s h
    simp only [scrapeRun]
    exact ih _ (step_notified_in_new p c d s u h)

theorem run_proc_inv (p : Finset String) (c : String → Option ClassifiedItem)
    (d : ClassifiedItem → Bool) :
    ∀ (urls : List String) (s : RunState), ProcInv p c s →
      ProcInv p c (scrapeRun p c d s urls) := by
  intro urls
  induction urls with
  | nil => intro s h; simpa [scrapeRun] using h
  | cons u us ih =>
    intro s h
    simp only [scrapeRun]
    exact ih _ (step_proc_inv p c d s u h)

theorem step_core_congr (p : Finset String) (c : String → Option ClassifiedItem)
    (d1 d2 : ClassifiedItem → Bool) (s1 s2 : RunState) (u : String)
    (h : coreView s1 = coreView s2) :
    coreView (scrapeStep p c d1 s1 u) = coreView (scrapeStep p c d2 s2 u) := by
  have h1 : s1.free_items = s2.free_items := congrArg (fun t => t.1) h
  have h2 : s1.new_posted = s2.new_posted := congrArg (fun t => t.2.1) h
  have h3 : s1.processed = s2.processed := congrArg (fun t => t.2.2.1) h
  have h4 : s1.notified = s2.notified := congrArg (fun t => t.2.2.2) h
  rw [scrapeStep_cases, scrapeStep_cases]
  by_cases hm : u ∈ s2.processed
  · rw [if_pos (by rw [h3]; exact hm), if_pos hm]
    exact h
  · rw [if_neg (by rw [h3]; exact hm), if_neg hm]
    rcases hc : c u with _ | item
    · simp only [hc, coreView]
      rw [h1, h2, h3, h4]
    · by_cases hp : itemId item ∈ p
      · simp only [hc, hp, ite_true, coreView]
        rw [h1, h2, h3, h4]
      · simp only [hc, hp, ite_false, coreView, if_neg]
        rw [h1, h2, h3, h4]

theorem run_core_congr (p : Finset String) (c : String → Option ClassifiedItem)
    (d1 d2 : ClassifiedItem → Bool) :
    ∀ (urls : List String) (s1 s2 : RunState), coreView s1 = coreView s2 →
      coreView (scrapeRun p c d1 s1 urls) = coreView (scrapeRun p c d2 s2 urls) := by
  intro urls
  induction urls with
  | nil => intro s1 s2 h; simpa [scrapeRun] using h
  | cons u us ih =>
    intro s1 s2 h
    simp only [scrapeRun]
    exact ih _ _ (step_core_congr p c d1 d2 s1 s2 u h)

theorem run_free_items_eq (p : Finset String) (c : String → Option ClassifiedItem)
    (d : ClassifiedItem → Bool) :
    ∀ (urls : List String) (s : RunState),
      (scrapeRun p c d s urls).free_items =
        s.free_items ++
          ((dedupFirst s.processed urls).filterMap c).filter
            fun it => decide (itemId it ∉ p) := by
  intro urls
  induction urls with
  | nil => intro s; simp [scrapeRun, dedupFirst]
  | cons u us ih =>
    intro s
    simp only [scrapeRun]
    by_cases hm : u ∈ s.processed
    · rw [scrapeStep_cases, if_pos hm, ih]
      simp [dedupFirst, hm]
    · rw [scrapeStep_cases, if_neg hm]
      rcases hc : c u with _ | item
      · simp only [hc]
        rw [ih]
        simp [dedupFirst, hm, hc]
      · by_cases hp : itemId item ∈ p
        · simp only [hc, hp, ite_true]
          rw [ih]
          simp [dedupFirst, hm, hc, hp]
        · simp only [hc, hp, ite_false]
          rw [ih]
          simp [dedupFirst, hm, hc, hp]

theorem mem_orderUrls (u : String) (all_urls : List String) (hu : u ∈ all_urls) :
    u ∈ orderUrls all_urls := by
  by_cases hp : u ∈ priority_urls
  · exact List.mem_append_left _ hp
  · simp [orderUrls, List.mem_filter, hu, hp]

/-! ## Claims about the run orchestration -/

/-- Claim C1, counterexample: with an empty loaded Ledger, two distinct
detail URLs classified in the same run to the same `(name, flag)` pair are
each dispatched — the identity `"A-False"` is notified twice in one run,
refuting at-most-once per identity. -/
theorem notified_twice_in_one_run_counterexample :
    ¬((scrape_free_items ∅ classifyAA (fun _ => true) ["u1", "u2"]).notified.count
        "A-False" ≤ 1) := by decide

/-- Claim C1 (amended): the dedup decision consults only the Ledger
snapshot loaded at run start.  Every identity present in the snapshot is
skipped silently (never notified in that run), and no identity notified in
a run is notified again in a later run that loads that run's persisted
Ledger; but within a single run an identity absent from the snapshot is
notified once per distinct detail URL yielding it, so same-run duplicates
are possible. -/
theorem notifier_dedup_against_snapshot (posted : Finset String)
    (c1f c2f : String → Option ClassifiedItem) (d1 d2 : ClassifiedItem → Bool)
    (urls1 urls2 : List String) :
    (∀ x ∈ posted, x ∉ (scrape_free_items posted c1f d1 urls1).notified) ∧
    ∀ x ∈ (scrape_free_items (scrape_free_items posted c1f d1 urls1).new_posted
              c2f d2 urls2).notified,
      x ∉ (scrape_free_items posted c1f d1 urls1).notified := by
  have hnp1 : ∀ x ∈ (scrape_free_items posted c1f d1 urls1).notified, x ∉ posted :=
    run_notified_not_posted posted c1f d1 (orderUrls urls1) (initState posted)
      (by intro x hx; simp [initState] at hx)
  have hin1 : ∀ x ∈ (scrape_free_items posted c1f d1 urls1).notified,
      x ∈ (scrape_free_items posted c1f d1 urls1).new_posted :=
    run_notified_in_new posted c1f d1 (orderUrls urls1) (initState posted)
      (by intro x hx; simp [initState] at hx)
  have hnp2 : ∀ x ∈ (scrape_free_items (scrape_free_items posted c1f d1 urls1).new_posted
        c2f d2 urls2).notified,
      x ∉ (scrape_free_items posted c1f d1 urls1).new_posted :=
    run_notified_not_posted _ c2f d2 (orderUrls urls2) (initState _)
      (by intro x hx; simp [initState] at hx)
  exact ⟨fun x hx hmem => hnp1 x hmem hx, fun x hx hmem => hnp2 x hx (hin1 x hmem)⟩

/-- Claim C1, witness: an identity in the loaded snapshot is never
notified. -/
theorem notifier_dedup_against_snapshot_witness :
    ("X" : String) ∈ ({"X"} : Finset String) ∧
    "X" ∉ (scrape_free_items {"X"} classifyAA (fun _ => true) ["u1"]).notified :=
  ⟨by decide,
    (notifier_dedup_against_snapshot {"X"} classifyAA classifyAA (fun _ => true)
        (fun _ => true) ["u1"] ["u1"]).1 "X" (by decide)⟩

/-- Claim C2, counterexample: a detail URL is positively classified
(`classifyAA "u1" = some itemA1`), yet because its identity is already in
the loaded Ledger snapshot the persisted output artifact of the run is
empty — classified items are not written "regardless of whether the
identity was already present". -/
theorem artifact_omits_posted_item_counterexample :
    classifyAA "u1" = some itemA1 ∧
    run_artifact {"A-False"} classifyAA (fun _ => true) ["u1"] = [] := by decide

/-- Claim C2 (amended): the output artifact contains exactly the
classified items, in processing order over the first occurrence of each
detail URL, whose ItemIdentity is NOT in the loaded Ledger snapshot; items
classified to an identity already in the snapshot are omitted. -/
theorem artifact_eq_new_identity_items (posted : Finset String)
    (c : String → Option ClassifiedItem) (d : ClassifiedItem → Bool)
    (all_urls : List String) :
    run_artifact posted c d all_urls =
      ((dedupFirst ∅ (orderUrls all_urls)).filterMap c).filter
        fun it => decide (itemId it ∉ posted) := by
  have h := run_free_items_eq posted c d (orderUrls all_urls) (initState posted)
  simpa [run_artifact, scrape_free_items, initState] using h

/-- Claim C6: an identity outside the loaded snapshot, once classified, is
in the persisted Ledger no matter what the delivery oracle returns; the
recorded state does not depend on delivery outcomes at all, and any
non-204 response (or a raised POST) is reported as failure without
affecting it. -/
theorem identity_recorded_regardless_of_delivery (posted : Finset String)
    (c : String → Option ClassifiedItem) (d1 d2 : ClassifiedItem → Bool)
    (all_urls : List String) (u : String) (item : ClassifiedItem)
    (hu : u ∈ all_urls) (hc : c u = some item) (hnp : itemId item ∉ posted) :
    itemId item ∈ (scrape_free_items posted c d1 all_urls).new_posted ∧
    itemId item ∈
      load_posted_items (save_posted_items (scrape_free_items posted c d1 all_urls).new_posted) ∧
    (scrape_free_items posted c d1 all_urls).new_posted =
      (scrape_free_items posted c d2 all_urls).new_posted ∧
    ∀ status, status ≠ some 204 → send_item_to_discord status = false := by
  have hinv : ProcInv posted c
      (scrapeRun posted c d1 (initState posted) (orderUrls all_urls)) :=
    run_proc_inv posted c d1 (orderUrls all_urls) (initState posted)
      (by intro v hv; simp [initState] at hv)
  have hproc : u ∈ (scrapeRun posted c d1 (initState posted) (orderUrls all_urls)).processed :=
    run_mem_processed posted c d1 u (orderUrls all_urls) (initState posted)
      (mem_orderUrls u all_urls hu)
  have hmem : itemId item ∈ (scrape_free_items posted c d1 all_urls).new_posted :=
    hinv u hproc item hc hnp
  refine ⟨hmem, ?_, ?_, ?_⟩
  · rw [load_save]
    exact hmem
  · have hcore : coreView (scrapeRun posted c d1 (initState posted) (orderUrls all_urls)) =
        coreView (scrapeRun posted c d2 (initState posted) (orderUrls all_urls)) :=
      run_core_congr posted c d1 d2 (orderUrls all_urls) (initState posted) (initState posted) rfl
    exact congrArg (fun t => t.2.1) hcore
  · intro status hs
    rcases status with _ | code
    · rfl
    · cases hcode : code == 204
      · simp [send_item_to_discord, hcode]
      · have hceq : code = 204 := by simpa using hcode
        exact absurd (congrArg Option.some hceq) hs

/-- Claim C6, witness. -/
theorem identity_recorded_regardless_of_delivery_witness :
    ("u1" ∈ (["u1"] : List String) ∧ classifyAA "u1" = some itemA1 ∧
      itemId itemA1 ∉ (∅ : Finset String)) ∧
    itemId itemA1 ∈ (scrape_free_items ∅ classifyAA (fun _ => true) ["u1"]).new_posted :=
  ⟨⟨by decide, by decide, by decide⟩,
    (identity_recorded_regardless_of_delivery ∅ classifyAA (fun _ => true) (fun _ => false)
        ["u1"] "u1" itemA1 (by decide) (by decide) (by decide)).1⟩

/-- Claim C10: the Ledger persisted at run end is a superset of the loaded
snapshot (identities are only ever added), and every identity notified
during the run is contained in the persisted set. -/
theorem ledger_monotone (posted : Finset String) (c : String → Option ClassifiedItem)
    (d : ClassifiedItem → Bool) (all_urls : List String) :
    posted ⊆
      load_posted_items (save_posted_items (scrape_free_items posted c d all_urls).new_posted) ∧
    ∀ x ∈ (scrape_free_items posted c d all_urls).notified,
      x ∈ load_posted_items
        (save_posted_items (scrape_free_items posted c d all_urls).new_posted) := by
  rw [load_save]
  constructor
  · have h := run_new_posted_superset posted c d (orderUrls all_urls) (initState posted)
    simpa [initState] using h
  · exact run_notified_in_new posted c d (orderUrls all_urls) (initState posted)
      (by intro x hx; simp [initState] at hx)

/-- Claim C10, witness. -/
theorem ledger_monotone_witness :
    "A-False" ∈ (scrape_free_items ∅ classifyAA (fun _ => true) ["u1"]).notified ∧
    "A-False" ∈ load_posted_items
      (save_posted_items (scrape_free_items ∅ classifyAA (fun _ => true) ["u1"]).new_posted) :=
  ⟨by decide,
    (ledger_monotone ∅ classifyAA (fun _ => true) ["u1"]).2 "A-False" (by decide)⟩

/-! ## Claims about discovery, ordering and the ledger file -/

/-- Claim C7: if link enumeration fails with any error, the discovered
page list is exactly the one-element root list; on success the root
listing address is always a member of the result. -/
theorem discovery_fallback_and_root_membership (e : Unit) (links : List LinkRes) :
    get_all_crownstore_urls (Except.error e) = [crownstore_base] ∧
    crownstore_base ∈ get_all_crownstore_urls (Except.ok links) := by
  constructor
  · rfl
  · simp [get_all_crownstore_urls, Finset.mem_sort]

/-- Claim C8: saving a Ledger set and reloading it yields an equal set,
and an absent or unparsable (raising) Ledger file loads as the empty set
rather than an error. -/
theorem ledger_round_trip (s : Finset String) (_h : s.Nonempty) :
    load_posted_items (save_posted_items s) = s ∧
    load_posted_items LedgerFile.absent = ∅ ∧
    load_posted_items LedgerFile.corrupt = ∅ :=
  ⟨load_save s, rfl, rfl⟩

/-- Claim C8, witness. -/
theorem ledger_round_trip_witness :
    ({"A-False"} : Finset String).Nonempty ∧
    load_posted_items (save_posted_items {"A-False"}) = ({"A-False"} : Finset String) :=
  ⟨by decide, (ledger_round_trip {"A-False"} (by decide)).1⟩

/-- Claim C9: the inspected sequence starts with the hand-curated priority
list, contains every discovered address, holds each address at most once,
and an address that is both discovered and prioritized appears only in its
priority position. -/
theorem urls_priority_order (all_urls : List String) (h : all_urls.Nodup) :
    (orderUrls all_urls).take priority_urls.length = priority_urls ∧
    (orderUrls all_urls).Nodup ∧
    (∀ u ∈ all_urls, u ∈ orderUrls all_urls) ∧
    ∀ u ∈ priority_urls, u ∉ (orderUrls all_urls).drop priority_urls.length := by
  refine ⟨?_, ?_, fun u hu => mem_orderUrls u all_urls hu, ?_⟩
  · simp only [orderUrls]
    exact List.take_left _ _
  · simp only [orderUrls]
    refine List.nodup_append.mpr ⟨by decide, h.filter _, ?_⟩
    intro x hx hx2
    have := (List.mem_filter.mp hx2).2
    simp only [decide_eq_true_eq] at this
    exact this hx
  · intro u hu
    simp only [orderUrls]
    rw [List.drop_left]
    intro hmem
    have := (List.mem_filter.mp hmem).2
    simp only [decide_eq_true_eq] at this
    exact this hu

/-- Claim C9, witness. -/
theorem urls_priority_order_witness :
    (["u1"] : List String).Nodup ∧
    (orderUrls ["u1"]).Nodup ∧ "u1" ∈ orderUrls ["u1"] :=
  ⟨by decide, (urls_priority_order ["u1"] (by decide)).2.1,
    (urls_priority_order ["u1"] (by decide)).2.2.1 "u1" (by decide)⟩

end EsoScraper
